import Mathlib

/-!
Verification of the aily-project compiler installer/uninstaller scripts.

The JavaScript source (install script `part_000` and `esp-x32/uninstall.js`) is
shallowly embedded: every asynchronous operation is modelled by a pure function
over an explicit description of the external world (per-attempt outcomes of the
network, the filesystem and the archive-tool subprocess), and each orchestrator
returns a trace recording its result, how many times each effect was invoked,
and the console messages relevant to the orchestration decisions.
-/

namespace AilyCompilers

/-- A value thrown by the JavaScript code: either an `Error` object carrying a
message (`throw new Error(msg)` / a rejected promise's error), or the
`TypeError` the runtime raises when a field of `undefined` is read. -/
inductive JsThrow where
  | errorObj (msg : String)
  | typeErrorUndefinedRead (field : String)
deriving DecidableEq, Repr

/-- The `.message` field of a thrown value. For the runtime `TypeError` this is
the runtime-produced text. -/
def JsThrow.message : JsThrow → String
  | .errorObj m => m
  | .typeErrorUndefinedRead f =>
      "Cannot read properties of undefined (reading '" ++ f ++ "')"

/-- Result of one call of `withRetry` (source lines 42-60): the settled value,
the number of invocations of the wrapped operation, and the number of
`setTimeout` delays inserted between attempts. -/
structure RetryTrace (α : Type) where
  result : Except JsThrow α
  calls : Nat
  delays : Nat
deriving Repr

/-- The aggregate error message thrown after the retry loop exhausts all
attempts: `` `经过 ${maxRetries} 次尝试后操作仍然失败: ${lastError.message}` ``. -/
def aggregateMsg (maxRetries : Nat) (e : JsThrow) : String :=
  "经过 " ++ toString maxRetries ++ " 次尝试后操作仍然失败: " ++ e.message

/-- The code after the `for` loop of `withRetry`: `throw new Error(...)` reading
`lastError.message`. When the loop body never ran, `lastError` is still
`undefined` and reading `.message` raises a `TypeError`. -/
def retryFinal (α : Type) (maxRetries calls delays : Nat) :
    Option JsThrow → RetryTrace α
  | some e => ⟨.error (.errorObj (aggregateMsg maxRetries e)), calls, delays⟩
  | none => ⟨.error (.typeErrorUndefinedRead "message"), calls, delays⟩

/-- The `for (let attempt = 1; attempt <= maxRetries; attempt++)` loop of
`withRetry`. `op i` is the outcome of the `i`-th invocation of the wrapped
operation. `fuel` counts the remaining loop iterations, so the current attempt
number is `maxRetries - fuel + 1` (the loop enters with `fuel = maxRetries`).
A delay is inserted only when `attempt < maxRetries`, i.e. when at least one
more iteration remains after the current one. -/
def retryGo {α : Type} (op : Nat → Except JsThrow α) (maxRetries : Nat) :
    Nat → Option JsThrow → Nat → Nat → RetryTrace α
  | 0, lastError, calls, delays => retryFinal α maxRetries calls delays lastError
  | fuel + 1, _lastError, calls, delays =>
      let attempt := maxRetries - fuel
      match op attempt with
      | .ok a => ⟨.ok a, calls + 1, delays⟩
      | .error e =>
          retryGo op maxRetries fuel (some e) (calls + 1)
            (if 0 < fuel then delays + 1 else delays)

/-- `withRetry(fn, maxRetries, retryDelay)` (source lines 42-60). The constant
`retryDelay` does not influence control flow and is omitted; `delays` in the
trace counts how many times it would be waited. -/
def withRetry {α : Type} (op : Nat → Except JsThrow α) (maxRetries : Nat) :
    RetryTrace α :=
  retryGo op maxRetries maxRetries none 0 0

lemma retryGo_ok_aux {α : Type} (op : Nat → Except JsThrow α)
    (maxRetries k : Nat) (a : α) (hok : op k = .ok a) (hkmax : k ≤ maxRetries) :
    ∀ F lastError calls delays, 1 ≤ F → F ≤ maxRetries →
      maxRetries - F + 1 ≤ k →
      (∀ i, maxRetries - F + 1 ≤ i → i < k → ∃ e, op i = .error e) →
      retryGo op maxRetries F lastError calls delays =
        ⟨.ok a, calls + (k - (maxRetries - F + 1)) + 1,
          delays + (k - (maxRetries - F + 1))⟩ := by
  intro F
  induction F with
  | zero => intro le c d h1 _ _ _; omega
  | succ F ih =>
      intro le c d _h1 hF hA hfail
      have hatt : maxRetries - F = maxRetries - (F + 1) + 1 := by omega
      by_cases hk : maxRetries - F = k
      · rw [retryGo]
        simp only [← hk] at hok
        rw [hok]
        have h0 : k - (maxRetries - (F + 1) + 1) = 0 := by omega
        rw [h0]
        simp
      · -- the current attempt fails and the loop continues
        have hlt : maxRetries - F < k := by omega
        obtain ⟨e, he⟩ := hfail (maxRetries - F) (by omega) hlt
        rw [retryGo]
        simp only [he]
        have hFpos : 1 ≤ F := by omega
        rw [if_pos (by omega : 0 < F)]
        rw [ih (some e) (c + 1) (d + 1) hFpos (by omega) (by omega)
          (fun i h1 h2 => hfail i (by omega) h2)]
        have e1 : c + 1 + (k - (maxRetries - F + 1)) + 1 =
            c + (k - (maxRetries - (F + 1) + 1)) + 1 := by omega
        have e2 : d + 1 + (k - (maxRetries - F + 1)) =
            d + (k - (maxRetries - (F + 1) + 1)) := by omega
        rw [e1, e2]

lemma retryGo_fail_aux {α : Type} (op : Nat → Except JsThrow α)
    (maxRetries : Nat) (f : Nat → JsThrow)
    (hfail : ∀ i, 1 ≤ i → i ≤ maxRetries → op i = .error (f i)) :
    ∀ F lastError calls delays, 1 ≤ F → F ≤ maxRetries →
      retryGo op maxRetries F lastError calls delays =
        ⟨.error (.errorObj (aggregateMsg maxRetries (f maxRetries))),
          calls + F, delays + (F - 1)⟩ := by
  intro F
  induction F with
  | zero => intro le c d h1 _; omega
  | succ F ih =>
      intro le c d _h1 hF
      have hi1 : 1 ≤ maxRetries - F := by omega
      have hi2 : maxRetries - F ≤ maxRetries := by omega
      rw [retryGo]
      simp only [hfail (maxRetries - F) hi1 hi2]
      by_cases hF0 : F = 0
      · subst hF0
        rw [if_neg (by omega : ¬ 0 < 0)]
        rw [retryGo]
        simp [retryFinal]
      · rw [if_pos (by omega : 0 < F)]
        rw [ih (some (f (maxRetries - F))) (c + 1) (d + 1) (by omega) (by omega)]
        have e1 : c + 1 + F = c + (F + 1) := by omega
        have e2 : d + 1 + (F - 1) = d + (F + 1 - 1) := by omega
        rw [e1, e2]

/-- C2. `withRetry` invokes the operation exactly `min(k, maxRetries)` times:
when the operation first succeeds at attempt `k ≤ maxRetries` (all earlier
attempts failing) it is invoked exactly `k` times and attempt `k`'s result is
returned, with a delay after each of the `k - 1` failed attempts; when every
attempt up to `maxRetries` fails it is invoked exactly `maxRetries` times and
`withRetry` fails with the aggregate error naming the attempt count and the
last underlying error's message, with exactly `maxRetries - 1` delays — none
after the last attempt. -/
theorem withRetry_spec {α : Type} (op : Nat → Except JsThrow α)
    (maxRetries : Nat) (hmax : 1 ≤ maxRetries) :
    (∀ k a, 1 ≤ k → k ≤ maxRetries →
      (∀ i, 1 ≤ i → i < k → ∃ e, op i = .error e) → op k = .ok a →
      withRetry op maxRetries = ⟨.ok a, k, k - 1⟩) ∧
    (∀ f : Nat → JsThrow, (∀ i, 1 ≤ i → i ≤ maxRetries → op i = .error (f i)) →
      withRetry op maxRetries =
        ⟨.error (.errorObj (aggregateMsg maxRetries (f maxRetries))),
          maxRetries, maxRetries - 1⟩) := by
  constructor
  · intro k a hk1 hk2 hfail hok
    unfold withRetry
    rw [retryGo_ok_aux op maxRetries k a hok hk2 maxRetries none 0 0 hmax
      (le_refl _) (by omega) (fun i h1 h2 => hfail i (by omega) h2)]
    have e1 : 0 + (k - (maxRetries - maxRetries + 1)) + 1 = k := by omega
    have e2 : 0 + (k - (maxRetries - maxRetries + 1)) = k - 1 := by omega
    rw [e1, e2]
  · intro f hfail
    unfold withRetry
    rw [retryGo_fail_aux op maxRetries f hfail maxRetries none 0 0 hmax
      (le_refl _)]
    have e1 : 0 + maxRetries = maxRetries := by omega
    have e2 : 0 + (maxRetries - 1) = maxRetries - 1 := by omega
    rw [e1, e2]

/-- Witness for `withRetry_spec` at concrete inputs: an operation failing once
then succeeding with value `7` under `maxRetries = 2`, and an operation that
always fails with message `boom` under `maxRetries = 2`. -/
theorem withRetry_spec_witness :
    withRetry (fun i => if i = 1 then .error (.errorObj "e1") else .ok 7) 2 =
      ⟨.ok 7, 2, 1⟩ ∧
    withRetry (fun _ => (.error (.errorObj "boom") : Except JsThrow Nat)) 2 =
      ⟨.error (.errorObj (aggregateMsg 2 (.errorObj "boom"))), 2, 1⟩ := by
  constructor
  · exact (withRetry_spec (fun i => if i = 1 then .error (.errorObj "e1")
        else .ok 7) 2 (by omega)).1 2 7 (by omega) (by omega)
      (by
        intro i h1 h2
        have : i = 1 := by omega
        subst this
        exact ⟨.errorObj "e1", rfl⟩)
      rfl
  · exact (withRetry_spec (fun _ => (.error (.errorObj "boom") :
        Except JsThrow Nat)) 2 (by omega)).2 (fun _ => .errorObj "boom")
      (fun i _ _ => rfl)

/-- C10. Calling `withRetry` with `maxRetries = 0` skips the loop body
entirely: the wrapped operation is never invoked, no result is returned, and
the final aggregate throw reads the `message` field of the still-unassigned
`lastError`, raising the runtime `TypeError` for a property read of
`undefined`. -/
theorem withRetry_zero {α : Type} (op : Nat → Except JsThrow α) :
    (withRetry op 0).calls = 0 ∧
    (withRetry op 0).result = .error (.typeErrorUndefinedRead "message") ∧
    (withRetry op 0).delays = 0 :=
  ⟨rfl, rfl, rfl⟩

/-! ## File readiness gate (`waitForFileReady`, source lines 63-98) -/

/-- Outcome of one `fs.open(filePath, 'r', ...)` call: success, or an error
carrying its `code` string. -/
inductive OpenResult where
  | ok
  | err (code : String)
deriving DecidableEq, Repr

/-- `err.code === 'EBUSY' || err.code === 'ENOENT' || err.code === 'EPERM'`. -/
def transientCode (code : String) : Bool :=
  code == "EBUSY" || code == "ENOENT" || code == "EPERM"

/-- The value `waitForFileReady` rejects with: either the descriptive error
built after exhausting all attempts, or the original OS error forwarded by
`reject(err)`. -/
inductive WaitError where
  | exhausted (maxAttempts : Nat) (filePath : String)
  | osError (code : String)
deriving DecidableEq, Repr

/-- The message of a `WaitError`; an OS error's message is modelled by its
code string. -/
def WaitError.message : WaitError → String
  | .exhausted n p => "文件在 " ++ toString n ++ " 次尝试后仍不可用: " ++ p
  | .osError code => code

/-- Result of `waitForFileReady`: the settled value and the number of
`fs.open` polls performed. -/
structure WaitTrace where
  result : Except WaitError Unit
  polls : Nat
deriving Repr

/-- The `checkFile` polling loop. `openF i` is the outcome of the `i`-th
`fs.open`. `fuel + 1` is the remaining poll allowance, so the current poll
number is `maxAttempts - fuel` (the loop enters with `fuel + 1 = maxAttempts`)
and the JS guard `attempts < maxAttempts` for re-polling becomes `0 < fuel`.
The `fuel = 0` state is reached only on the initial call with
`maxAttempts = 0`, where JS still performs one poll. On a successful open the
file descriptor is closed (a close error only warns) and the promise resolves;
the close outcome therefore does not affect the trace. -/
def waitGo (openF : Nat → OpenResult) (filePath : String) (maxAttempts : Nat) :
    Nat → WaitTrace
  | 0 =>
      match openF (maxAttempts + 1) with
      | .ok => ⟨.ok (), maxAttempts + 1⟩
      | .err code =>
          if transientCode code then
            ⟨.error (.exhausted maxAttempts filePath), maxAttempts + 1⟩
          else ⟨.error (.osError code), maxAttempts + 1⟩
  | fuel + 1 =>
      let attempts := maxAttempts - fuel
      match openF attempts with
      | .ok => ⟨.ok (), attempts⟩
      | .err code =>
          if transientCode code then
            if 0 < fuel then waitGo openF filePath maxAttempts fuel
            else ⟨.error (.exhausted maxAttempts filePath), attempts⟩
          else ⟨.error (.osError code), attempts⟩

/-- `waitForFileReady(filePath, maxAttempts, interval)`; the poll interval has
no effect on control flow and is omitted. -/
def waitForFileReady (openF : Nat → OpenResult) (filePath : String)
    (maxAttempts : Nat) : WaitTrace :=
  waitGo openF filePath maxAttempts maxAttempts

/-- The `i`-th open fails with a transient (retried) error code. -/
def transientFail (openF : Nat → OpenResult) (i : Nat) : Prop :=
  ∃ c, openF i = .err c ∧ transientCode c = true

lemma waitGo_exhaust_aux (openF : Nat → OpenResult) (filePath : String)
    (maxAttempts : Nat)
    (hfail : ∀ i, 1 ≤ i → i ≤ maxAttempts → transientFail openF i) :
    ∀ F, F + 1 ≤ maxAttempts →
      waitGo openF filePath maxAttempts (F + 1) =
        ⟨.error (.exhausted maxAttempts filePath), maxAttempts⟩ := by
  intro F
  induction F with
  | zero =>
      intro hF
      obtain ⟨c, hc, htr⟩ := hfail (maxAttempts - 0) (by omega) (by omega)
      rw [waitGo]
      simp only [hc, htr, if_pos]
      rw [if_neg (by omega : ¬ 0 < 0)]
      have : maxAttempts - 0 = maxAttempts := by omega
      rw [this]
  | succ F ih =>
      intro hF
      obtain ⟨c, hc, htr⟩ := hfail (maxAttempts - (F + 1)) (by omega) (by omega)
      rw [waitGo]
      simp only [hc, htr, if_pos]
      rw [if_pos (by omega : 0 < F + 1)]
      exact ih (by omega)

lemma waitGo_ok_aux (openF : Nat → OpenResult) (filePath : String)
    (maxAttempts k : Nat) (hk : openF k = .ok) :
    ∀ F, F + 1 ≤ maxAttempts → maxAttempts - F ≤ k → k ≤ maxAttempts →
      (∀ i, maxAttempts - F ≤ i → i < k → transientFail openF i) →
      waitGo openF filePath maxAttempts (F + 1) = ⟨.ok (), k⟩ := by
  intro F
  induction F with
  | zero =>
      intro hF hA hkm _hfail
      have hcur : maxAttempts - 0 = k := by omega
      rw [waitGo]
      rw [hcur, hk]
  | succ F ih =>
      intro hF hA hkm hfail
      by_cases hkcur : maxAttempts - (F + 1) = k
      · rw [waitGo]
        rw [hkcur, hk]
      · have hlt : maxAttempts - (F + 1) < k := by omega
        obtain ⟨c, hc, htr⟩ := hfail (maxAttempts - (F + 1)) (le_refl _) hlt
        rw [waitGo]
        simp only [hc, htr, if_pos]
        rw [if_pos (by omega : 0 < F + 1)]
        exact ih (by omega) (by omega) hkm
          (fun i h1 h2 => hfail i (by omega) h2)

lemma waitGo_oserr_aux (openF : Nat → OpenResult) (filePath : String)
    (maxAttempts k : Nat) (c : String) (hk : openF k = .err c)
    (hnt : transientCode c = false) :
    ∀ F, F + 1 ≤ maxAttempts → maxAttempts - F ≤ k → k ≤ maxAttempts →
      (∀ i, maxAttempts - F ≤ i → i < k → transientFail openF i) →
      waitGo openF filePath maxAttempts (F + 1) =
        ⟨.error (.osError c), k⟩ := by
  intro F
  induction F with
  | zero =>
      intro hF hA hkm _hfail
      have hcur : maxAttempts - 0 = k := by omega
      rw [waitGo]
      rw [hcur, hk]
      simp [hnt]
  | succ F ih =>
      intro hF hA hkm hfail
      by_cases hkcur : maxAttempts - (F + 1) = k
      · rw [waitGo]
        rw [hkcur, hk]
        simp [hnt]
      · have hlt : maxAttempts - (F + 1) < k := by omega
        obtain ⟨c', hc', htr'⟩ := hfail (maxAttempts - (F + 1)) (le_refl _) hlt
        rw [waitGo]
        simp only [hc', htr', if_pos]
        rw [if_pos (by omega : 0 < F + 1)]
        exact ih (by omega) (by omega) hkm
          (fun i h1 h2 => hfail i (by omega) h2)

/-- C3. `waitForFileReady`: (1) when every poll up to `maxAttempts` fails with
a transient code (`EBUSY`/`ENOENT`/`EPERM`) it polls exactly `maxAttempts`
times and rejects with the error naming the attempt count and the path;
(2) when polls before `k` fail transiently and poll `k ≤ maxAttempts`
succeeds, it resolves after exactly `k` polls; (3) when poll `k ≤ maxAttempts`
fails with a non-transient code (earlier polls transient) it rejects
immediately with that OS error after exactly `k` polls. The embedding returns
a single settled value, so the promise settles exactly once. -/
theorem waitForFileReady_spec (openF : Nat → OpenResult) (filePath : String)
    (maxAttempts : Nat) (hmax : 1 ≤ maxAttempts) :
    ((∀ i, 1 ≤ i → i ≤ maxAttempts → transientFail openF i) →
      waitForFileReady openF filePath maxAttempts =
        ⟨.error (.exhausted maxAttempts filePath), maxAttempts⟩) ∧
    (∀ k, 1 ≤ k → k ≤ maxAttempts →
      (∀ i, 1 ≤ i → i < k → transientFail openF i) → openF k = .ok →
      waitForFileReady openF filePath maxAttempts = ⟨.ok (), k⟩) ∧
    (∀ k c, 1 ≤ k → k ≤ maxAttempts →
      (∀ i, 1 ≤ i → i < k → transientFail openF i) →
      openF k = .err c → transientCode c = false →
      waitForFileReady openF filePath maxAttempts =
        ⟨.error (.osError c), k⟩) := by
  obtain ⟨M, rfl⟩ : ∃ M, maxAttempts = M + 1 := ⟨maxAttempts - 1, by omega⟩
  refine ⟨?_, ?_, ?_⟩
  · intro hfail
    exact waitGo_exhaust_aux openF filePath (M + 1) hfail M (le_refl _)
  · intro k hk1 hk2 hfail hok
    exact waitGo_ok_aux openF filePath (M + 1) k hok M (le_refl _)
      (by omega) hk2 (fun i h1 h2 => hfail i (by omega) h2)
  · intro k c hk1 hk2 hfail herr hnt
    exact waitGo_oserr_aux openF filePath (M + 1) k c herr hnt M (le_refl _)
      (by omega) hk2 (fun i h1 h2 => hfail i (by omega) h2)

/-- Witness for `waitForFileReady_spec` at concrete inputs: a path that is
always busy under `maxAttempts = 2`, a path ready on the second poll, and a
path failing with a non-transient code on the first poll. -/
theorem waitForFileReady_spec_witness :
    waitForFileReady (fun _ => .err "EBUSY") "a.7z" 2 =
      ⟨.error (.exhausted 2 "a.7z"), 2⟩ ∧
    waitForFileReady (fun i => if i = 1 then .err "ENOENT" else .ok) "a.7z" 2 =
      ⟨.ok (), 2⟩ ∧
    waitForFileReady (fun _ => .err "EACCES") "a.7z" 2 =
      ⟨.error (.osError "EACCES"), 1⟩ := by
  refine ⟨?_, ?_, ?_⟩
  · exact (waitForFileReady_spec (fun _ => .err "EBUSY") "a.7z" 2
      (by omega)).1 (fun i _ _ => ⟨"EBUSY", rfl, rfl⟩)
  · exact (waitForFileReady_spec (fun i => if i = 1 then .err "ENOENT"
        else .ok) "a.7z" 2 (by omega)).2.1 2 (by omega) (by omega)
      (by
        intro i h1 h2
        have : i = 1 := by omega
        subst this
        exact ⟨"ENOENT", rfl, rfl⟩)
      rfl
  · exact (waitForFileReady_spec (fun _ => .err "EACCES") "a.7z" 2
      (by omega)).2.2 1 "EACCES" (by omega) (by omega)
      (by intro i h1 h2; omega) rfl rfl

/-! ## Downloader (`getZipFile`, source lines 110-186) -/

/-- What happens to the response body stream after a 200 response: the write
stream finishes, or a stream-level error fires. -/
inductive BodyEvent where
  | finished
  | streamErr (msg : String)
deriving DecidableEq, Repr

/-- The network outcome of one `httpClient.get`: a response with a status code
and a body event, or a request-level `error` event. -/
inductive NetEvent where
  | response (status : Nat) (body : BodyEvent)
  | reqError (msg : String)
deriving DecidableEq, Repr

/-- Result of one `getZipFile` attempt: the settled value and whether
`fs.unlink` was called on the partial output file. -/
structure DownloadOutcome where
  result : Except JsThrow String
  unlinked : Bool
deriving Repr

/-- One `getZipFile` attempt. If the destination file already exists it
resolves immediately (no stream opened, no request). Otherwise a write stream
is created and the GET issued: a non-200 status closes the stream, unlinks the
partial file and rejects naming the status code; a stream error or a request
error unlinks the partial file and rejects with the underlying error; on
`finish` the stream is closed and, after the 200ms settle delay, the promise
resolves with the file name. Progress logging does not affect control flow and
is omitted. -/
def getZipFile (fileAlreadyExists : Bool) (zipFileName : String)
    (ev : NetEvent) : DownloadOutcome :=
  if fileAlreadyExists then ⟨.ok zipFileName, false⟩
  else
    match ev with
    | .reqError m => ⟨.error (.errorObj m), true⟩
    | .response status body =>
        if status ≠ 200 then
          ⟨.error (.errorObj ("下载失败: 状态码 " ++ toString status)), true⟩
        else
          match body with
          | .finished => ⟨.ok zipFileName, false⟩
          | .streamErr m => ⟨.error (.errorObj m), true⟩

/-- C4. Every download attempt that starts writing to a fresh destination and
then fails unlinks the partial file and rejects: a non-200 status rejects with
a message naming the received status code, and a stream-level (or
request-level) error rejects with the underlying error; in all such cases the
partial file is deleted, so no residual partial file remains. -/
theorem getZipFile_cleanup (zipFileName : String) :
    (∀ status body, status ≠ 200 →
      getZipFile false zipFileName (.response status body) =
        ⟨.error (.errorObj ("下载失败: 状态码 " ++ toString status)), true⟩) ∧
    (∀ m, getZipFile false zipFileName (.response 200 (.streamErr m)) =
      ⟨.error (.errorObj m), true⟩) ∧
    (∀ m, getZipFile false zipFileName (.reqError m) =
      ⟨.error (.errorObj m), true⟩) := by
  refine ⟨?_, ?_, ?_⟩
  · intro status body hs
    simp [getZipFile, hs]
  · intro m
    simp [getZipFile]
  · intro m
    simp [getZipFile]

/-- Witness for `getZipFile_cleanup`: a 404 response on a fresh destination
deletes the partial file and rejects naming status 404. -/
theorem getZipFile_cleanup_witness :
    getZipFile false "esp-x32@1.0.0.7z" (.response 404 .finished) =
      ⟨.error (.errorObj ("下载失败: 状态码 " ++ toString 404)), true⟩ :=
  (getZipFile_cleanup "esp-x32@1.0.0.7z").1 404 .finished (by omega)

/-! ## Archive extractor (`unpack`, source lines 301-338) -/

/-- What the spawned `7za` subprocess does: an `error` event (spawn failure,
carrying the OS error), or an `exit` event with an exit code, having emitted
`output` as its combined stdout/stderr text. -/
inductive SpawnEvent where
  | spawnErr (msg : String)
  | exited (code : Nat) (output : String)
deriving DecidableEq, Repr

/-- Result of one `unpack` call: the settled value and whether a subprocess
was spawned. -/
structure UnpackOutcome where
  result : Except JsThrow Unit
  spawned : Bool
deriving Repr

/-- `unpack(archivePath, destination)`: empty inputs reject before spawning;
otherwise the subprocess is spawned with arguments
`['x', archivePath, '-y', '-o' + destination]`; exit code 0 resolves, a
non-zero exit code rejects with an error embedding the code and the captured
output, and a spawn failure rejects with the underlying OS error. -/
def unpack (archivePath destination : String) (ev : SpawnEvent) :
    UnpackOutcome :=
  if archivePath = "" then ⟨.error (.errorObj "压缩文件路径不能为空"), false⟩
  else if destination = "" then ⟨.error (.errorObj "目标目录不能为空"), false⟩
  else
    match ev with
    | .spawnErr m => ⟨.error (.errorObj m), true⟩
    | .exited code output =>
        if code = 0 then ⟨.ok (), true⟩
        else
          ⟨.error (.errorObj
            ("7-zip 退出码 " ++ toString code ++ "\n" ++ output)), true⟩

/-- C7. For non-empty archive path and destination, `unpack` resolves exactly
when the subprocess exits with code 0; a non-zero exit code rejects with an
error whose message embeds both the exit code and the captured combined
stdout/stderr text; a spawn failure rejects with the underlying OS error; and
an empty archive path or empty destination rejects before any subprocess is
spawned. -/
theorem unpack_spec (archivePath destination : String)
    (hp : archivePath ≠ "") (hd : destination ≠ "") :
    (∀ output, unpack archivePath destination (.exited 0 output) =
      ⟨.ok (), true⟩) ∧
    (∀ code output, code ≠ 0 →
      unpack archivePath destination (.exited code output) =
        ⟨.error (.errorObj
          ("7-zip 退出码 " ++ toString code ++ "\n" ++ output)), true⟩) ∧
    (∀ m, unpack archivePath destination (.spawnErr m) =
      ⟨.error (.errorObj m), true⟩) ∧
    (∀ ev dest, unpack "" dest ev =
      ⟨.error (.errorObj "压缩文件路径不能为空"), false⟩) ∧
    (∀ ev, unpack archivePath "" ev =
      ⟨.error (.errorObj "目标目录不能为空"), false⟩) := by
  refine ⟨?_, ?_, ?_, ?_, ?_⟩
  · intro output
    simp [unpack, hp, hd]
  · intro code output hc
    simp [unpack, hp, hd, hc]
  · intro m
    simp [unpack, hp, hd]
  · intro ev dest
    simp [unpack]
  · intro ev
    simp [unpack, hp]

/-- Witness for `unpack_spec`: exit code 2 with diagnostic text rejects with
an error embedding both; exit code 0 resolves; empty archive path rejects
without spawning. -/
theorem unpack_spec_witness :
    unpack "a.7z" "/dest" (.exited 2 "diag") =
      ⟨.error (.errorObj ("7-zip 退出码 " ++ toString 2 ++ "\n" ++ "diag")),
        true⟩ ∧
    unpack "a.7z" "/dest" (.exited 0 "") = ⟨.ok (), true⟩ ∧
    unpack "" "/dest" (.exited 0 "") =
      ⟨.error (.errorObj "压缩文件路径不能为空"), false⟩ := by
  refine ⟨?_, ?_, ?_⟩
  · exact (unpack_spec "a.7z" "/dest" (by simp) (by simp)).2.1 2 "diag"
      (by omega)
  · exact (unpack_spec "a.7z" "/dest" (by simp) (by simp)).1 ""
  · exact (unpack_spec "a.7z" "/dest" (by simp) (by simp)).2.2.2.1
      (.exited 0 "") "/dest"

/-! ## Uninstall (`esp-x32/uninstall.js`) -/

/-- Outcome of a synchronous filesystem deletion (`fs.unlinkSync` /
`fs.rmSync`): success, an `ENOENT` error, or another error with a message. -/
inductive FsOutcome where
  | ok
  | enoent
  | fail (msg : String)
deriving DecidableEq, Repr

/-- Console messages of the uninstall script relevant to the claims. -/
inductive ULog where
  | fileRemoved
  | fileNotFound
  | fileWarn (msg : String)
  | dirRemoved
  | dirNotFound
  | dirWarn (msg : String)
  | dirStepSkipped
deriving DecidableEq, Repr

/-- `removeFile` (uninstall.js lines 29-44): `try` the deletion, log `ENOENT`
as a no-op, log any other error as a warning, and `resolve()` in `finally` —
every branch resolves, no branch rejects. -/
def removeFile (res : FsOutcome) : Except JsThrow Unit × List ULog :=
  match res with
  | .ok => (.ok (), [.fileRemoved])
  | .enoent => (.ok (), [.fileNotFound])
  | .fail m => (.ok (), [.fileWarn m])

/-- `removeDirectory` (uninstall.js lines 51-73): same shape as `removeFile`
for the recursive directory deletion. -/
def removeDirectory (res : FsOutcome) : Except JsThrow Unit × List ULog :=
  match res with
  | .ok => (.ok (), [.dirRemoved])
  | .enoent => (.ok (), [.dirNotFound])
  | .fail m => (.ok (), [.dirWarn m])

/-- Result of `uninstall`: the settled value, whether each cleanup step ran,
and the logs. -/
structure UninstallTrace where
  result : Except JsThrow Unit
  fileStepRun : Bool
  dirStepRun : Bool
  logs : List ULog
deriving Repr

/-- `uninstall()` (uninstall.js lines 78-100): always awaits `removeFile` on
the archive path; then, if the destination root is unconfigured, logs that the
directory step is skipped, otherwise awaits `removeDirectory` on the computed
compiler path. An `await` of a rejected step would propagate, which the match
arms make explicit; both steps in fact always resolve. -/
def uninstall (destDir : String) (unlinkRes rmRes : FsOutcome) :
    UninstallTrace :=
  let f := removeFile unlinkRes
  match f.1 with
  | .error e => ⟨.error e, true, false, f.2⟩
  | .ok _ =>
      if destDir = "" then ⟨.ok (), true, false, f.2 ++ [.dirStepSkipped]⟩
      else
        let d := removeDirectory rmRes
        match d.1 with
        | .error e => ⟨.error e, true, true, f.2 ++ d.2⟩
        | .ok _ => ⟨.ok (), true, true, f.2 ++ d.2⟩

/-- C8. `uninstall` always runs the archive-file step; the directory step runs
exactly when the destination root is configured (otherwise a skip message is
logged); absence of the archive file or of the extracted directory is logged
as a no-op; any other deletion failure is logged as a warning and does not
abort the remaining step; and `uninstall` never throws — it completes
successfully for every filesystem state. -/
theorem uninstall_spec (destDir : String) (unlinkRes rmRes : FsOutcome) :
    (uninstall destDir unlinkRes rmRes).result = .ok () ∧
    (uninstall destDir unlinkRes rmRes).fileStepRun = true ∧
    (destDir = "" → (uninstall destDir unlinkRes rmRes).dirStepRun = false ∧
      .dirStepSkipped ∈ (uninstall destDir unlinkRes rmRes).logs) ∧
    (destDir ≠ "" → (uninstall destDir unlinkRes rmRes).dirStepRun = true) ∧
    (unlinkRes = .enoent →
      .fileNotFound ∈ (uninstall destDir unlinkRes rmRes).logs) ∧
    (∀ m, unlinkRes = .fail m →
      .fileWarn m ∈ (uninstall destDir unlinkRes rmRes).logs) ∧
    (destDir ≠ "" → rmRes = .enoent →
      .dirNotFound ∈ (uninstall destDir unlinkRes rmRes).logs) ∧
    (destDir ≠ "" → ∀ m, rmRes = .fail m →
      .dirWarn m ∈ (uninstall destDir unlinkRes rmRes).logs) := by
  by_cases h : destDir = "" <;>
    cases unlinkRes <;> cases rmRes <;>
    simp [uninstall, removeFile, removeDirectory, h]

/-- Witness for `uninstall_spec`: a target with no existing archive file and
no existing extracted directory completes successfully, logging both as not
found. -/
theorem uninstall_spec_witness :
    (uninstall "/compilers" .enoent .enoent).result = .ok () ∧
    .fileNotFound ∈ (uninstall "/compilers" .enoent .enoent).logs ∧
    .dirNotFound ∈ (uninstall "/compilers" .enoent .enoent).logs := by
  refine ⟨(uninstall_spec "/compilers" .enoent .enoent).1, ?_, ?_⟩
  · exact (uninstall_spec "/compilers" .enoent .enoent).2.2.2.2.1 rfl
  · exact (uninstall_spec "/compilers" .enoent .enoent).2.2.2.2.2.2.1
      (by simp) rfl

/-! ## Name computations (`getZipFileName`, `targetDirName`, uninstall's
`compilerDirName`) -/

/-- JavaScript `String.prototype.replace` with a plain string pattern:
replaces only the first occurrence of `pat` (leftmost match); if `pat` does
not occur the string is returned unchanged; an empty `pat` matches at index 0.
List-of-characters version. -/
def replaceFirstL (pat repl : List Char) : List Char → List Char
  | [] => if pat.isPrefixOf ([] : List Char) then repl else []
  | c :: rest =>
      if pat.isPrefixOf (c :: rest) then repl ++ (c :: rest).drop pat.length
      else c :: replaceFirstL pat repl rest

/-- `s.replace(pat, repl)` for plain-string `pat`. -/
def jsReplace (s pat repl : String) : String :=
  String.mk (replaceFirstL pat.data repl.data s.data)

/-- `getZipFileName()` (source lines 100-107):
`` `${packageName}@${packageVersion}.7z` `` (with the package-name prefix
already stripped). -/
def getZipFileName (packageName packageVersion : String) : String :=
  packageName ++ "@" ++ packageVersion ++ ".7z"

/-- The extracted directory name computed by the install orchestrator (source
line 216): `zipFileName.replace('.7z', '')`. -/
def targetDirName (packageName packageVersion : String) : String :=
  jsReplace (getZipFileName packageName packageVersion) ".7z" ""

/-- `compilerDirName` computed by the uninstall script (uninstall.js line 21):
`` `${packageName}@${packageVersion}` ``. -/
def compilerDirName (packageName packageVersion : String) : String :=
  packageName ++ "@" ++ packageVersion

lemma replaceFirstL_append (pat repl : List Char) :
    ∀ s : List Char,
      (∀ i, i < s.length → pat.isPrefixOf ((s ++ pat).drop i) = false) →
      replaceFirstL pat repl (s ++ pat) = s ++ repl := by
  intro s
  induction s with
  | nil =>
      intro _
      match pat with
      | [] => rfl
      | c :: p =>
          show replaceFirstL (c :: p) repl (c :: p) = repl
          rw [replaceFirstL]
          rw [if_pos (by
            simp [List.isPrefixOf_iff_prefix])]
          simp
  | cons c rest ih =>
      intro h
      have h0 : pat.isPrefixOf (c :: (rest ++ pat)) = false := by
        have := h 0 (by simp)
        simpa using this
      rw [List.cons_append, replaceFirstL, h0]
      simp only [Bool.false_eq_true, if_false]
      rw [ih (fun i hi => by
        have := h (i + 1) (by simp; omega)
        simpa using this)]
      simp

lemma string_mk_data (s : String) : String.mk s.data = s := rfl

@[simp] lemma string_data_append (a b : String) :
    (a ++ b).data = a.data ++ b.data := rfl

/-- C9 counterexample: for `packageName = "a.7z"`, `version = "1"`, the
directory name computed by the install orchestrator
(`zipFileName.replace('.7z', '')` removes the first occurrence of `.7z`, not
the extension) differs from the compiler directory name computed by the
uninstall script, and is not the archive file name with its extension
stripped. -/
theorem targetDirName_counterexample :
    targetDirName "a.7z" "1" = "a@1.7z" ∧
    compilerDirName "a.7z" "1" = "a.7z@1" ∧
    targetDirName "a.7z" "1" ≠ compilerDirName "a.7z" "1" := by
  refine ⟨by decide, by decide, by decide⟩

/-- C9 (amended). Whenever the trailing `.7z` extension is the first
occurrence of `.7z` in the archive file name — in particular for every
package name and version not themselves containing `.7z` — the extracted
directory name computed by the install orchestrator equals the archive file
name with its extension stripped, and equals the compiler directory name
computed by the uninstall script, so install's already-installed check and
uninstall's directory deletion target the same
`<destinationDir>/<packageName>@<version>` directory. -/
theorem dirName_invariant (packageName packageVersion : String)
    (h : ∀ i, i < (compilerDirName packageName packageVersion).length →
      (String.data ".7z").isPrefixOf
        (((compilerDirName packageName packageVersion).data ++
          (String.data ".7z")).drop i) = false) :
    getZipFileName packageName packageVersion =
      compilerDirName packageName packageVersion ++ ".7z" ∧
    targetDirName packageName packageVersion =
      compilerDirName packageName packageVersion := by
  refine ⟨rfl, ?_⟩
  show jsReplace (compilerDirName packageName packageVersion ++ ".7z")
    ".7z" "" = compilerDirName packageName packageVersion
  unfold jsReplace
  rw [string_data_append]
  rw [replaceFirstL_append (String.data ".7z") (String.data "")
    (compilerDirName packageName packageVersion).data h]
  show String.mk ((compilerDirName packageName packageVersion).data ++ []) = _
  rw [List.append_nil]

/-- Witness for `dirName_invariant` at the realistic package identity
`esp-x32` version `1.0.0`. -/
theorem dirName_invariant_witness :
    getZipFileName "esp-x32" "1.0.0" = compilerDirName "esp-x32" "1.0.0" ++
      ".7z" ∧
    targetDirName "esp-x32" "1.0.0" = compilerDirName "esp-x32" "1.0.0" :=
  dirName_invariant "esp-x32" "1.0.0" (by decide)

/-! ## Install orchestrator (`extractArchives`, source lines 200-298) -/

/-- Outcome of `fs.statSync` on the downloaded file. -/
inductive StatResult where
  | found (size : Nat)
  | enoent
  | statFail (msg : String)
deriving DecidableEq, Repr

/-- The post-download size check (source lines 258-272). The size error is
thrown inside the inner `try`, caught by its own `catch (statErr)`, and —
since that error's `code` is not `ENOENT` — re-thrown wrapped as
`` `检查文件失败: ${statErr.message}` ``; the wrapped message still carries the
measured byte count. -/
def sizeCheck (stat : StatResult) (zipFilePath : String) :
    Except JsThrow Unit :=
  match stat with
  | .found size =>
      if size < 1048576 then
        .error (.errorObj ("检查文件失败: 下载的文件异常小 (" ++ toString size ++
          " 字节)，可能下载不完整或被截断"))
      else .ok ()
  | .enoent => .error (.errorObj ("下载的文件不存在: " ++ zipFilePath))
  | .statFail m => .error (.errorObj ("检查文件失败: " ++ m))

/-- Console messages of the install orchestrator relevant to the claims. -/
inductive LogMsg where
  | srcDirMissing
  | destDirUnset
  | targetExists
  | skipDownloadExtract
  | sevenZaMissing
  | fatal (msg : String)
  | extractedOk
deriving DecidableEq, Repr

/-- The external world as seen by one run of `extractArchives`: the
precondition observations, and the per-attempt outcomes of the download
polls, the stat, the readiness polls and the archive subprocess. -/
structure InstallEnv where
  srcDirExists : Bool
  destDir : String
  targetPathExists : Bool
  sevenZaExists : Bool
  destDirExists : Bool
  mkdirResult : Except JsThrow Unit
  zipUrlSet : Bool
  zipFilePath : String
  download : Nat → Except JsThrow String
  stat : StatResult
  openF : Nat → OpenResult
  unpackEv : Nat → SpawnEvent

/-- Result of one run of `extractArchives`: the process exit status (`0` for
a normal completion of the async function, `1` for the `process.exit(1)` in
the outer catch), the number of `getZipFile` invocations (each of which is
the only place a network request can be issued), the number of readiness
polls, the number of `unpack` invocations (each of which is the only place
the archive-tool subprocess can be spawned), and the logs. -/
structure InstallTrace where
  exitCode : Nat
  downloadCalls : Nat
  readyPolls : Nat
  unpackCalls : Nat
  logs : List LogMsg
deriving Repr

/-- The `fs.mkdirSync` blocks (source lines 231-234 and 241-248): a no-op
when the destination directory already exists; after a successful creation
the second, `try`-wrapped block is skipped because the directory then
exists. -/
def mkdirPhase (env : InstallEnv) : Except JsThrow Unit :=
  if env.destDirExists then .ok () else env.mkdirResult

/-- `extractArchives()` (source lines 200-298), the install orchestrator.
The first three failed checks (missing source directory, unset destination,
missing `7za`) `return` from the `try` block — the async function resolves
and the process exits normally with status 0. The skip check also `return`s
with status 0. Only thrown errors reach the outer `catch`, which logs and
calls `process.exit(1)`. -/
def extractArchives (env : InstallEnv) : InstallTrace :=
  if env.srcDirExists = false then ⟨0, 0, 0, 0, [.srcDirMissing]⟩
  else if env.destDir = "" then ⟨0, 0, 0, 0, [.destDirUnset]⟩
  else if env.targetPathExists then
    ⟨0, 0, 0, 0, [.targetExists, .skipDownloadExtract]⟩
  else if env.sevenZaExists = false then ⟨0, 0, 0, 0, [.sevenZaMissing]⟩
  else
    match mkdirPhase env with
    | .error e => ⟨1, 0, 0, 0, [.fatal e.message]⟩
    | .ok _ =>
        if env.zipUrlSet = false then
          ⟨1, 0, 0, 0, [.fatal "未设置下载基础 URL (AILY_ZIP_URL 环境变量未设置)"]⟩
        else
          let dl := withRetry env.download 3
          match dl.result with
          | .error e =>
              ⟨1, dl.calls, 0, 0, [.fatal ("无法下载zip文件: " ++ e.message)]⟩
          | .ok _fileName =>
              match sizeCheck env.stat env.zipFilePath with
              | .error e => ⟨1, dl.calls, 0, 0, [.fatal e.message]⟩
              | .ok _ =>
                  let w := waitForFileReady env.openF env.zipFilePath 20
                  match w.result with
                  | .error werr =>
                      ⟨1, dl.calls, w.polls, 0,
                        [.fatal ("等待文件就绪失败: " ++ werr.message)]⟩
                  | .ok _ =>
                      let up := withRetry (fun i =>
                        (unpack env.zipFilePath env.destDir
                          (env.unpackEv i)).result) 3
                      match up.result with
                      | .error e =>
                          ⟨1, dl.calls, w.polls, up.calls,
                            [.fatal ("解压失败: " ++ e.message)]⟩
                      | .ok _ =>
                          ⟨0, dl.calls, w.polls, up.calls, [.extractedOk]⟩

/-- C5. When the computed target extraction directory already exists (and the
two checks before it pass), `extractArchives` performs zero download
invocations — hence zero network requests — and zero `unpack` invocations —
hence zero archive-tool subprocesses — logs the skip, and completes with exit
status 0. -/
theorem install_skip (env : InstallEnv)
    (hsrc : env.srcDirExists = true) (hdest : env.destDir ≠ "")
    (htarget : env.targetPathExists = true) :
    extractArchives env =
      ⟨0, 0, 0, 0, [.targetExists, .skipDownloadExtract]⟩ := by
  unfold extractArchives
  rw [hsrc]
  rw [if_neg (by simp)]
  rw [if_neg hdest]
  rw [if_pos htarget]

/-- Witness for `install_skip` at a concrete environment whose target
directory exists. -/
theorem install_skip_witness :
    extractArchives
      ⟨true, "/compilers", true, true, true, .ok (), true, "/src/a.7z",
        fun _ => .ok "a.7z", .found 2097152, fun _ => .ok,
        fun _ => .exited 0 ""⟩ =
      ⟨0, 0, 0, 0, [.targetExists, .skipDownloadExtract]⟩ :=
  install_skip _ rfl (by simp) rfl

lemma retryGo_calls_mono {α : Type} (op : Nat → Except JsThrow α)
    (maxRetries : Nat) :
    ∀ fuel lastError calls delays,
      calls ≤ (retryGo op maxRetries fuel lastError calls delays).calls := by
  intro fuel
  induction fuel with
  | zero =>
      intro le c d
      cases le <;> simp [retryGo, retryFinal]
  | succ fuel ih =>
      intro le c d
      rw [retryGo]
      cases hop : op (maxRetries - fuel) with
      | ok a => simp
      | error e =>
          simp only []
          calc c ≤ c + 1 := by omega
            _ ≤ _ := ih (some e) (c + 1) _

lemma withRetry_calls_pos {α : Type} (op : Nat → Except JsThrow α)
    (maxRetries : Nat) (h : 1 ≤ maxRetries) :
    1 ≤ (withRetry op maxRetries).calls := by
  obtain ⟨M, rfl⟩ : ∃ M, maxRetries = M + 1 := ⟨maxRetries - 1, by omega⟩
  unfold withRetry
  rw [retryGo]
  cases hop : op (M + 1 - M) with
  | ok a => simp
  | error e =>
      simp only []
      calc 1 ≤ 0 + 1 := by omega
        _ ≤ _ := retryGo_calls_mono op (M + 1) M (some e) 1 _

lemma waitGo_polls_pos (openF : Nat → OpenResult) (filePath : String)
    (maxAttempts : Nat) :
    ∀ fuel, fuel ≤ maxAttempts →
      1 ≤ (waitGo openF filePath maxAttempts fuel).polls := by
  intro fuel
  induction fuel with
  | zero =>
      intro _
      rw [waitGo]
      cases openF (maxAttempts + 1) with
      | ok => simp
      | err code =>
          by_cases h : transientCode code = true <;> simp [h]
  | succ fuel ih =>
      intro hf
      rw [waitGo]
      cases openF (maxAttempts - fuel) with
      | ok => simp; omega
      | err code =>
          by_cases h : transientCode code = true
          · simp only [h, if_true]
            by_cases hf0 : 0 < fuel
            · rw [if_pos hf0]
              exact ih (by omega)
            · rw [if_neg hf0]
              simp
              omega
          · simp only [h]
            simp
            omega

/-- A concrete environment whose source directory is missing; every later
stage would succeed if reached. -/
def envMissingSrc : InstallEnv :=
  ⟨false, "/compilers", false, true, true, .ok (), true, "/src/a.7z",
    fun _ => .ok "a.7z", .found 2097152, fun _ => .ok, fun _ => .exited 0 ""⟩

/-- C1 counterexample: with the source directory missing, `extractArchives`
logs the error but the process terminates with exit status 0 — the check
`return`s from the `try` block instead of exiting with a non-zero status as
the claim requires. -/
theorem install_precondition_counterexample :
    envMissingSrc.srcDirExists = false ∧
    (extractArchives envMissingSrc).logs = [.srcDirMissing] ∧
    (extractArchives envMissingSrc).exitCode = 0 :=
  ⟨rfl, rfl, rfl⟩

/-- C1 (amended). Every failed precondition check logs and short-circuits the
orchestrator without any download or extraction work and without retrying;
however, only the unset-download-base-URL check terminates the process with a
non-zero exit status — the missing-source-directory, unset-destination and
missing-archive-tool checks `return` normally, so the process exits with
status 0. -/
theorem install_preconditions (env : InstallEnv) :
    (env.srcDirExists = false →
      extractArchives env = ⟨0, 0, 0, 0, [.srcDirMissing]⟩) ∧
    (env.srcDirExists = true → env.destDir = "" →
      extractArchives env = ⟨0, 0, 0, 0, [.destDirUnset]⟩) ∧
    (env.srcDirExists = true → env.destDir ≠ "" →
      env.targetPathExists = false → env.sevenZaExists = false →
      extractArchives env = ⟨0, 0, 0, 0, [.sevenZaMissing]⟩) ∧
    (env.srcDirExists = true → env.destDir ≠ "" →
      env.targetPathExists = false → env.sevenZaExists = true →
      mkdirPhase env = .ok () → env.zipUrlSet = false →
      extractArchives env =
        ⟨1, 0, 0, 0,
          [.fatal "未设置下载基础 URL (AILY_ZIP_URL 环境变量未设置)"]⟩) := by
  refine ⟨?_, ?_, ?_, ?_⟩
  · intro h
    simp [extractArchives, h]
  · intro h1 h2
    simp [extractArchives, h1, h2]
  · intro h1 h2 h3 h4
    simp [extractArchives, h1, h2, h3, h4]
  · intro h1 h2 h3 h4 h5 h6
    simp [extractArchives, h1, h2, h3, h4, h5, h6]

/-- Witness for `install_preconditions`: the missing-source-directory check
at `envMissingSrc` with its hypothesis discharged. -/
theorem install_preconditions_witness :
    extractArchives envMissingSrc = ⟨0, 0, 0, 0, [.srcDirMissing]⟩ :=
  (install_preconditions envMissingSrc).1 rfl

/-- C6. After a successful download (all precondition checks passed), the
orchestrator checks the downloaded file's size: a size strictly below 1048576
bytes makes the run fail with exit status 1 and a fatal message citing the
measured byte count, with zero readiness polls and zero `unpack` invocations;
a size of at least 1048576 bytes lets the pipeline proceed to the readiness
wait (at least one poll is performed) and, when the readiness wait resolves,
to extraction (at least one `unpack` invocation). -/
theorem install_sizeCheck (env : InstallEnv) (size : Nat) (fn : String)
    (hsrc : env.srcDirExists = true) (hdest : env.destDir ≠ "")
    (htarget : env.targetPathExists = false)
    (h7z : env.sevenZaExists = true)
    (hmk : mkdirPhase env = .ok ()) (hurl : env.zipUrlSet = true)
    (hdl : (withRetry env.download 3).result = .ok fn)
    (hstat : env.stat = .found size) :
    (size < 1048576 →
      extractArchives env =
        ⟨1, (withRetry env.download 3).calls, 0, 0,
          [.fatal ("检查文件失败: 下载的文件异常小 (" ++ toString size ++
            " 字节)，可能下载不完整或被截断")]⟩) ∧
    (1048576 ≤ size →
      1 ≤ (extractArchives env).readyPolls ∧
      ((waitForFileReady env.openF env.zipFilePath 20).result = .ok () →
        1 ≤ (extractArchives env).unpackCalls)) := by
  constructor
  · intro hsize
    simp [extractArchives, sizeCheck, hsrc, hdest, htarget, h7z, hmk, hurl,
      hdl, hstat, hsize, JsThrow.message]
  · intro hsize
    have hns : ¬ size < 1048576 := by omega
    constructor
    · cases hw : (waitForFileReady env.openF env.zipFilePath 20).result with
      | error werr =>
          simp [extractArchives, sizeCheck, hsrc, hdest, htarget, h7z, hmk,
            hurl, hdl, hstat, hns, hw]
          exact waitGo_polls_pos env.openF env.zipFilePath 20 20 (by omega)
      | ok u =>
          cases hup : (withRetry (fun i =>
              (unpack env.zipFilePath env.destDir
                (env.unpackEv i)).result) 3).result with
          | error e =>
              simp [extractArchives, sizeCheck, hsrc, hdest, htarget, h7z,
                hmk, hurl, hdl, hstat, hns, hw, hup]
              exact waitGo_polls_pos env.openF env.zipFilePath 20 20 (by omega)
          | ok v =>
              simp [extractArchives, sizeCheck, hsrc, hdest, htarget, h7z,
                hmk, hurl, hdl, hstat, hns, hw, hup]
              exact waitGo_polls_pos env.openF env.zipFilePath 20 20 (by omega)
    · intro hready
      cases hup : (withRetry (fun i =>
          (unpack env.zipFilePath env.destDir
            (env.unpackEv i)).result) 3).result with
      | error e =>
          simp [extractArchives, sizeCheck, hsrc, hdest, htarget, h7z, hmk,
            hurl, hdl, hstat, hns, hready, hup]
          exact withRetry_calls_pos _ 3 (by omega)
      | ok v =>
          simp [extractArchives, sizeCheck, hsrc, hdest, htarget, h7z, hmk,
            hurl, hdl, hstat, hns, hready, hup]
          exact withRetry_calls_pos _ 3 (by omega)

/-- A concrete environment whose download yields a 512000-byte (500 KiB)
file. -/
def envSmallFile : InstallEnv :=
  ⟨true, "/compilers", false, true, true, .ok (), true, "/src/a.7z",
    fun _ => .ok "a.7z", .found 512000, fun _ => .ok, fun _ => .exited 0 ""⟩

/-- A concrete environment whose download yields a 2 MiB file and whose
readiness wait and extraction succeed. -/
def envBigFile : InstallEnv :=
  ⟨true, "/compilers", false, true, true, .ok (), true, "/src/a.7z",
    fun _ => .ok "a.7z", .found 2097152, fun _ => .ok, fun _ => .exited 0 ""⟩

/-- Witness for `install_sizeCheck`: a 500 KiB download fails the size check
with the byte count in the message and no extraction; a 2 MiB download
proceeds to the readiness wait and extraction. -/
theorem install_sizeCheck_witness :
    extractArchives envSmallFile =
      ⟨1, 1, 0, 0,
        [.fatal ("检查文件失败: 下载的文件异常小 (" ++ toString 512000 ++
          " 字节)，可能下载不完整或被截断")]⟩ ∧
    1 ≤ (extractArchives envBigFile).readyPolls ∧
    1 ≤ (extractArchives envBigFile).unpackCalls := by
  refine ⟨?_, ?_, ?_⟩
  · exact (install_sizeCheck envSmallFile 512000 "a.7z" rfl (by decide) rfl rfl
      rfl rfl rfl rfl).1 (by omega)
  · exact ((install_sizeCheck envBigFile 2097152 "a.7z" rfl (by decide) rfl rfl
      rfl rfl rfl rfl).2 (by omega)).1
  · exact ((install_sizeCheck envBigFile 2097152 "a.7z" rfl (by decide) rfl rfl
      rfl rfl rfl rfl).2 (by omega)).2 rfl

end AilyCompilers
